import Mathlib

/-!
Verification of the content-addressable file writer (`file.go` of
go-contentaddressable), as a shallow embedding.

The filesystem is modelled as a partial map from paths to byte contents.
Fallible operations performed by the operating system (handle close, short
or failing writes, stat, rename, recursive removal, directory creation)
receive their outcome as explicit oracle arguments: `none` means the
operation succeeded, `some e` means the operating system reported error
`e`.  The SHA-256 primitive from Go's standard library is external to the
repository; its streaming behaviour (the accumulator absorbs exactly the
bytes fed to `Write`, `Sum` digests the accumulated sequence) is modelled
by keeping the accumulated byte list in the writer and quantifying over an
arbitrary digest function `sha256hex`.
-/

set_option autoImplicit false

namespace ContentAddressable

/-- Byte sequences (file contents, write payloads). -/
abbrev Bytes := List Nat

/-- Filesystem paths. -/
abbrev Path := String

/-- Go `error` values distinguished by the code under verification. -/
inductive GoError where
  /-- `AlreadyClosed = errors.New("Already closed.")` -/
  | alreadyClosed : GoError
  /-- the `os.IsNotExist` stat error for an absent file -/
  | notExist : GoError
  /-- `fmt.Errorf("Content mismatch.  Expected OID %s, got %s", w.Oid, sig)` -/
  | contentMismatch (expected actual : String) : GoError
  /-- an opaque error reported by an operating-system call -/
  | fsFault (op : String) (code : Nat) : GoError
deriving DecidableEq, Repr

/-- The filesystem: a map from paths to file contents. -/
structure FS where
  files : Path → Option Bytes

/-- Point update of the filesystem at one path. -/
def FS.set (fs : FS) (p : Path) (c : Option Bytes) : FS :=
  ⟨fun q => if q = p then c else fs.files q⟩

/-- Effect of `os.OpenFile(p, O_WRONLY|O_CREATE|O_EXCL, 0644)` succeeding:
an empty file appears at `p`. -/
def FS.create (fs : FS) (p : Path) : FS :=
  fs.set p (some [])

/-- Effect of a file-handle write appending bytes `b` to the file at `p`. -/
def FS.append (fs : FS) (p : Path) (b : Bytes) : FS :=
  fs.set p (some ((fs.files p).getD [] ++ b))

/-- Effect of `os.RemoveAll p` succeeding: the file at `p` is gone. -/
def FS.remove (fs : FS) (p : Path) : FS :=
  fs.set p none

/-- Effect of `os.Rename src dst` succeeding. -/
def FS.rename (fs : FS) (src dst : Path) : FS :=
  (fs.set dst (fs.files src)).set src none

/-- Model of `filepath.Base` for slash-separated paths: drop trailing slashes, then
keep the last path element. -/
def filepathBase (path : Path) : String :=
  if path = "" then "."
  else
    let s := String.mk (path.toList.reverse.dropWhile (fun c => c = '/')).reverse
    if s = "" then "/"
    else String.mk ((s.toList.reverse.takeWhile (fun c => c ≠ '/')).reverse)

/-- Go constant `DefaultSuffix = "-temp"`. -/
def DefaultSuffix : String := "-temp"

/-- The `File` struct: a content-addressable writer.  The open `*os.File`
handle is modelled by `tempFile : Option Path` holding the handle's name
(`none` models the nil handle).  `hasher` is the byte sequence absorbed by
the SHA-256 accumulator so far. -/
structure File where
  Oid : String
  filename : Path
  tempFilename : Path
  tempFile : Option Path
  hasher : Bytes
deriving DecidableEq, Repr

/-- Query `Closed` reports whether this file object has been closed
(`w.tempFile == nil`). -/
def File.Closed (w : File) : Bool :=
  w.tempFile.isNone

/-- Constructor `NewWithSuffix`: make the parent directory (outcome `mkdirErr`), then
open the staging path with create+exclusive semantics, which fails when a
file already occupies it.  Returns the new filesystem, the writer (when
construction succeeded) and the error. -/
def NewWithSuffix (filename suffix : Path) (fs : FS) (mkdirErr : Option GoError) :
    FS × Option File × Option GoError :=
  match mkdirErr with
  | some e => (fs, none, some e)
  | none =>
    let tempFilename := filename ++ suffix
    if (fs.files tempFilename).isSome then
      (fs, none, some (GoError.fsFault "open" 17))
    else
      (fs.create tempFilename,
       some { Oid := filepathBase filename
              filename := filename
              tempFilename := tempFilename
              tempFile := some tempFilename
              hasher := [] },
       none)

/-- Constructor `NewFile`: `NewWithSuffix` with `DefaultSuffix`. -/
def NewFile (filename : Path) (fs : FS) (mkdirErr : Option GoError) :
    FS × Option File × Option GoError :=
  NewWithSuffix filename DefaultSuffix fs mkdirErr

/-- Method `Write(p)`.  The underlying `tempFile.Write(p)` outcome is the oracle
pair `(n, werr)`: the staging file accepted the first `n` bytes of `p` and
the call reported `werr`.  The hasher absorbs all of `p`
(`w.hasher.Write(p)`) before the file write.  Returns the updated writer,
filesystem, byte count and error. -/
def File.write (w : File) (fs : FS) (p : Bytes) (n : Nat) (werr : Option GoError) :
    File × FS × Nat × Option GoError :=
  if w.Closed then
    (w, fs, 0, some GoError.alreadyClosed)
  else
    ({ w with hasher := w.hasher ++ p },
     fs.append w.tempFilename (p.take n),
     n, werr)

/-- Helper `cleanupFile(f)`: close the handle (outcome `closeErr`), then
`os.RemoveAll(f.Name())` (outcome `removeErr`); a removal error is
returned in preference to the close error. -/
def cleanupFile (fs : FS) (name : Path) (closeErr removeErr : Option GoError) :
    FS × Option GoError :=
  let fsAfter := match removeErr with
    | none => fs.remove name
    | some _ => fs
  match removeErr with
  | some e => (fsAfter, some e)
  | none => (fsAfter, closeErr)

/-- Method `Close`: when the handle is still present, run `cleanupFile` on it and
clear the handle only when cleanup returned nil; a nil handle is a no-op
returning nil. -/
def File.close (w : File) (fs : FS) (closeErr removeErr : Option GoError) :
    File × FS × Option GoError :=
  match w.tempFile with
  | none => (w, fs, none)
  | some name =>
    let r := cleanupFile fs name closeErr removeErr
    match r.2 with
    | some e => (w, r.1, some e)
    | none => ({ w with tempFile := none }, r.1, none)

/-- Method `Accept`: on an open writer, hex-digest the absorbed bytes and compare
with `Oid`.  Mismatch returns the content-mismatch error.  On match,
`os.Stat(w.filename)` (outcome `statErr`) decides the branch: any stat
error takes the rename path (handle closed with its error ignored, handle
cleared, `os.Rename` outcome `renameErr` returned with `created = true`);
a nil stat takes the duplicate path, returning `false` and the result of
`w.Close()`. -/
def File.accept (sha256hex : Bytes → String) (w : File) (fs : FS)
    (statErr closeErr renameErr : Option GoError) (removeErr : Option GoError) :
    File × FS × Bool × Option GoError :=
  if w.Closed then
    (w, fs, false, some GoError.alreadyClosed)
  else
    let sig := sha256hex w.hasher
    if sig ≠ w.Oid then
      (w, fs, false, some (GoError.contentMismatch w.Oid sig))
    else
      match statErr with
      | some _ =>
        let fsAfter := match renameErr with
          | none => fs.rename w.tempFilename w.filename
          | some _ => fs
        ({ w with tempFile := none }, fsAfter, true, renameErr)
      | none =>
        let r := w.close fs closeErr removeErr
        (r.1, r.2.1, false, r.2.2)

/-- The honest stat outcome on a healthy filesystem: nil when the file
exists, the not-exists error when it does not. -/
def idealStat (fs : FS) (p : Path) : Option GoError :=
  if (fs.files p).isSome then none else some GoError.notExist

/-- Write a list of chunks in order, each write accepted in full with a
nil outcome, stopping at the first error. -/
def writeChunks (w : File) (fs : FS) : List Bytes → File × FS × Option GoError
  | [] => (w, fs, none)
  | p :: rest =>
    let r := w.write fs p p.length none
    match r.2.2.2 with
    | some e => (r.1, r.2.1, some e)
    | none => writeChunks r.1 r.2.1 rest

/-! ## General lemmas about the filesystem model -/

theorem FS.files_set (fs : FS) (p : Path) (c : Option Bytes) (q : Path) :
    (fs.set p c).files q = if q = p then c else fs.files q := rfl

theorem FS.set_set (fs : FS) (p : Path) (a b : Option Bytes) :
    (fs.set p a).set p b = fs.set p b := by
  cases fs
  simp only [FS.set, FS.mk.injEq]
  funext q
  by_cases h : q = p <;> simp [h]

theorem FS.set_self (fs : FS) (p : Path) (c : Bytes)
    (h : fs.files p = some c) : fs.set p (some c) = fs := by
  cases fs
  simp only [FS.set, FS.mk.injEq]
  funext q
  by_cases hq : q = p <;> simp_all

/-- Writing a list of chunks to an open writer succeeds, appends the
concatenation of the chunks to the staging file, and absorbs the same
concatenation into the hasher. -/
theorem writeChunks_ok (chunks : List Bytes) :
    ∀ (w : File) (fs : FS) (c : Bytes), w.Closed = false →
    fs.files w.tempFilename = some c →
    writeChunks w fs chunks =
      ({ w with hasher := w.hasher ++ chunks.flatten },
       fs.set w.tempFilename (some (c ++ chunks.flatten)), none) := by
  induction chunks with
  | nil =>
    intro w fs c hopen hfile
    simp only [writeChunks, List.flatten_nil, List.append_nil]
    rw [FS.set_self fs w.tempFilename c hfile]
  | cons p rest ih =>
    intro w fs c hopen hfile
    simp only [writeChunks, File.write, hopen, Bool.false_eq_true, if_false,
      List.take_length]
    have hopen' : File.Closed { w with hasher := w.hasher ++ p } = false := hopen
    have hfile' : (fs.append w.tempFilename p).files
        (File.tempFilename { w with hasher := w.hasher ++ p }) = some (c ++ p) := by
      simp [FS.append, FS.files_set, hfile]
    rw [ih _ _ (c ++ p) hopen' hfile']
    simp only [FS.append, hfile, Option.getD_some, FS.set_set, List.flatten_cons,
      List.append_assoc]

/-! ## Claim C1 -/

/-- C1: for every byte sequence `B` and every way of splitting `B` into
chunks, constructing a writer whose destination base name equals the
hex-encoded SHA-256 of `B` (on a filesystem where neither the destination
nor the staging path is occupied), writing the chunks in order, and then
calling Accept returns `(true, nil)`, and afterward the file at the
destination path exists with contents exactly `B`; the chunk boundaries
affect neither the digest nor the written bytes. -/
theorem claim1_write_accept_roundtrip
    (sha256hex : Bytes → String) (B : Bytes) (chunks : List Bytes)
    (filename suffix : Path) (fs : FS)
    (hjoin : chunks.flatten = B)
    (hoid : filepathBase filename = sha256hex B)
    (hne : filename ++ suffix ≠ filename)
    (htemp : fs.files (filename ++ suffix) = none)
    (hdest : fs.files filename = none) :
    ∃ w : File,
      (NewWithSuffix filename suffix fs none).2.1 = some w ∧
      (NewWithSuffix filename suffix fs none).2.2 = none ∧
      (writeChunks w (NewWithSuffix filename suffix fs none).1 chunks).2.2 = none ∧
      ((fun r => (fun a => a.2.2.1 = true ∧ a.2.2.2 = none ∧
            a.2.1.files filename = some B)
          (File.accept sha256hex r.1 r.2.1 (idealStat r.2.1 filename) none none none))
        (writeChunks w (NewWithSuffix filename suffix fs none).1 chunks)) := by
  have hbuild : NewWithSuffix filename suffix fs none =
      (fs.create (filename ++ suffix),
       some { Oid := filepathBase filename, filename := filename,
              tempFilename := filename ++ suffix,
              tempFile := some (filename ++ suffix), hasher := [] },
       none) := by
    simp [NewWithSuffix, htemp]
  refine ⟨{ Oid := filepathBase filename, filename := filename,
            tempFilename := filename ++ suffix,
            tempFile := some (filename ++ suffix), hasher := [] },
          by rw [hbuild], by rw [hbuild], ?_, ?_⟩ <;> rw [hbuild] <;> dsimp only
  · rw [writeChunks_ok chunks
      { Oid := filepathBase filename, filename := filename,
        tempFilename := filename ++ suffix,
        tempFile := some (filename ++ suffix), hasher := [] }
      (fs.create (filename ++ suffix)) [] rfl
      (by simp [FS.create, FS.files_set])]
  · rw [writeChunks_ok chunks
      { Oid := filepathBase filename, filename := filename,
        tempFilename := filename ++ suffix,
        tempFile := some (filename ++ suffix), hasher := [] }
      (fs.create (filename ++ suffix)) [] rfl
      (by simp [FS.create, FS.files_set])]
    simp only [List.nil_append, hjoin]
    have hfname : filename ≠ filename ++ suffix := fun h => hne h.symm
    have hdest2 : ((fs.create (filename ++ suffix)).set (filename ++ suffix)
        (some B)).files filename = none := by
      simp [FS.create, FS.files_set, hfname, hdest]
    simp only [File.accept, File.Closed, Option.isNone_some, Bool.false_eq_true,
      if_false, ← hoid, ne_eq, not_true_eq_false, idealStat, hdest2,
      Option.isSome_none, FS.rename]
    simp [FS.files_set, hfname]

/-- C1 witness: a concrete run with `B = [1, 2]` written as two chunks. -/
theorem claim1_witness :
    ([[1], [2]] : List Bytes).flatten = [1, 2] ∧
    filepathBase "d/aa" = (fun _ => "aa") [1, 2] ∧
    "d/aa" ++ "-t" ≠ "d/aa" ∧
    (∃ w : File,
      (NewWithSuffix "d/aa" "-t" ⟨fun _ => none⟩ none).2.1 = some w ∧
      (NewWithSuffix "d/aa" "-t" ⟨fun _ => none⟩ none).2.2 = none ∧
      (writeChunks w (NewWithSuffix "d/aa" "-t" ⟨fun _ => none⟩ none).1
        [[1], [2]]).2.2 = none ∧
      ((fun r => (fun a => a.2.2.1 = true ∧ a.2.2.2 = none ∧
            a.2.1.files "d/aa" = some [1, 2])
          (File.accept (fun _ => "aa") r.1 r.2.1 (idealStat r.2.1 "d/aa")
            none none none))
        (writeChunks w (NewWithSuffix "d/aa" "-t" ⟨fun _ => none⟩ none).1
          [[1], [2]]))) :=
  ⟨by decide, by decide, by decide,
   claim1_write_accept_roundtrip (fun _ => "aa") [1, 2] [[1], [2]]
     "d/aa" "-t" ⟨fun _ => none⟩ (by decide) (by decide) (by decide) rfl rfl⟩

/-! ## Concrete sample values used by witnesses and counterexamples -/

/-- A filesystem with no files. -/
def emptyFS : FS := ⟨fun _ => none⟩

/-- A sample open writer that has absorbed the byte 7. -/
def wOpen : File :=
  { Oid := "aa", filename := "d/aa", tempFilename := "d/aa-temp",
    tempFile := some "d/aa-temp", hasher := [7] }

/-- A sample open writer that has absorbed nothing. -/
def wFresh : File :=
  { Oid := "aa", filename := "d/aa", tempFilename := "d/aa-temp",
    tempFile := some "d/aa-temp", hasher := [] }

/-- A sample filesystem holding only the staging file of `wOpen`. -/
def fsT : FS := emptyFS.set "d/aa-temp" (some [7])

/-- A sample filesystem holding the staging file of `wOpen` and a
pre-existing destination file with different contents. -/
def fsD : FS := fsT.set "d/aa" (some [9])

/-! ## Claim C2 -/

/-- C2: when Accept runs on an open writer and the hex digest of the bytes
written so far differs from the expected identifier, it returns
`created = false` and a content-mismatch error carrying the expected and
the actual identifier, and both the writer and the filesystem are left
untouched: the staging file stays in place and no file is created at the
destination. -/
theorem claim2_mismatch_reports_both_ids (sha256hex : Bytes → String)
    (w : File) (fs : FS) (statErr closeErr renameErr removeErr : Option GoError)
    (hopen : w.Closed = false)
    (hsig : sha256hex w.hasher ≠ w.Oid) :
    w.accept sha256hex fs statErr closeErr renameErr removeErr =
      (w, fs, false, some (GoError.contentMismatch w.Oid (sha256hex w.hasher))) := by
  simp [File.accept, hopen, hsig]

/-- C2 witness: a concrete mismatch run. -/
theorem claim2_witness :
    wOpen.Closed = false ∧ (fun _ : Bytes => "zz") wOpen.hasher ≠ wOpen.Oid ∧
    wOpen.accept (fun _ => "zz") fsT none none none none =
      (wOpen, fsT, false, some (GoError.contentMismatch "aa" "zz")) :=
  ⟨rfl, by decide,
   claim2_mismatch_reports_both_ids (fun _ => "zz") wOpen fsT
     none none none none rfl (by decide)⟩

/-! ## Claim C3 -/

/-- C3 counterexample: the claim says the digest is fed precisely the
bytes the staging file actually accepted, including on short writes.  In
the run below the staging file accepts 0 of the 1 bytes passed to Write,
yet the digest absorbs the full payload: the hasher ends with `[7]` while
the bytes accepted are `[]`. -/
theorem claim3_counterexample :
    wFresh.Closed = false ∧
    (wFresh.write fsT [7] 0 none).1.hasher ≠ wFresh.hasher ++ List.take 0 [7] := by
  constructor
  · rfl
  · simp [File.write, wFresh, File.Closed]

/-- C3 amended: the digest absorbs the whole argument of every Write call
on an open writer, regardless of how many bytes the staging file accepts;
the staging file itself gains exactly the accepted prefix. -/
theorem claim3_digest_absorbs_whole_argument (w : File) (fs : FS)
    (p : Bytes) (n : Nat) (e : Option GoError) (hopen : w.Closed = false) :
    (w.write fs p n e).1.hasher = w.hasher ++ p ∧
    (w.write fs p n e).2.1.files w.tempFilename =
      some ((fs.files w.tempFilename).getD [] ++ p.take n) := by
  simp [File.write, hopen, FS.append, FS.files_set]

/-- C3 witness: a concrete short write, digest absorbing `[7]` while the
file accepts nothing. -/
theorem claim3_witness :
    wFresh.Closed = false ∧
    ((wFresh.write fsT [7] 0 none).1.hasher = wFresh.hasher ++ [7] ∧
     (wFresh.write fsT [7] 0 none).2.1.files wFresh.tempFilename =
       some ((fsT.files wFresh.tempFilename).getD [] ++ List.take 0 [7])) :=
  ⟨rfl, claim3_digest_absorbs_whole_argument wFresh fsT [7] 0 none rfl⟩

/-! ## Claim C4 -/

/-- C4 counterexample: the claim says every Accept call on an open writer
terminates it, including the mismatch outcome.  In the run below Accept
returns the content-mismatch error and the writer still reports open
afterward; a subsequent Write succeeds (it does not return the
already-closed error). -/
theorem claim4_counterexample :
    wOpen.Closed = false ∧
    (wOpen.accept (fun _ => "zz") fsT none none none none).2.2.2 =
      some (GoError.contentMismatch "aa" "zz") ∧
    ((wOpen.accept (fun _ => "zz") fsT none none none none).1).Closed = false ∧
    ((wOpen.accept (fun _ => "zz") fsT none none none none).1.write fsT [3] 1
        none).2.2.2 = none := by
  refine ⟨rfl, ?_, ?_, ?_⟩ <;> decide

/-- C4 amended: Accept on an open writer closes it on both digest-match
branches — unconditionally on the rename branch, and on the duplicate
branch when cleanup succeeds — and every closed writer's subsequent Write
or Accept returns the already-closed error; a content-mismatch Accept,
however, leaves the writer unchanged, hence still open. -/
theorem claim4_accept_match_is_terminal (sha256hex : Bytes → String)
    (w : File) (fs : FS) (statErr closeErr renameErr removeErr : Option GoError)
    (hopen : w.Closed = false) :
    (sha256hex w.hasher = w.Oid → statErr ≠ none →
      (w.accept sha256hex fs statErr closeErr renameErr removeErr).1.Closed = true) ∧
    (sha256hex w.hasher = w.Oid → statErr = none → closeErr = none → removeErr = none →
      (w.accept sha256hex fs statErr closeErr renameErr removeErr).1.Closed = true) ∧
    (sha256hex w.hasher ≠ w.Oid →
      (w.accept sha256hex fs statErr closeErr renameErr removeErr).1 = w) ∧
    (∀ w' : File, w'.Closed = true → ∀ (fs' : FS) (p : Bytes) (n : Nat)
        (e : Option GoError),
      w'.write fs' p n e = (w', fs', 0, some GoError.alreadyClosed)) ∧
    (∀ w' : File, w'.Closed = true → ∀ (fs' : FS) (s c r m : Option GoError),
      w'.accept sha256hex fs' s c r m = (w', fs', false, some GoError.alreadyClosed)) := by
  obtain ⟨t, ht⟩ : ∃ t, w.tempFile = some t := by
    cases h : w.tempFile with
    | none => rw [File.Closed, h] at hopen; simp at hopen
    | some t => exact ⟨t, rfl⟩
  refine ⟨?_, ?_, ?_, ?_, ?_⟩
  · intro hsig hstat
    match statErr with
    | some e => simp [File.accept, hopen, hsig, File.Closed, ht]
    | none => exact absurd rfl hstat
  · intro hsig hstat hc hm
    subst hstat hc hm
    simp [File.accept, hopen, hsig, File.close, cleanupFile, File.Closed, ht]
  · intro hsig
    simp [File.accept, hopen, hsig]
  · intro w' hcl fs' p n e
    simp [File.write, hcl]
  · intro w' hcl fs' s c r m
    simp [File.accept, hcl]

/-- C4 witness: a concrete digest-match run on each branch of the amended
claim. -/
theorem claim4_witness :
    wOpen.Closed = false ∧
    (((fun _ : Bytes => "aa") wOpen.hasher = wOpen.Oid →
        (some GoError.notExist : Option GoError) ≠ none →
      (wOpen.accept (fun _ => "aa") fsT (some GoError.notExist) none none
        none).1.Closed = true) ∧
     ((fun _ : Bytes => "aa") wOpen.hasher = wOpen.Oid →
        (some GoError.notExist : Option GoError) = none →
        (none : Option GoError) = none → (none : Option GoError) = none →
      (wOpen.accept (fun _ => "aa") fsT (some GoError.notExist) none none
        none).1.Closed = true) ∧
     ((fun _ : Bytes => "aa") wOpen.hasher ≠ wOpen.Oid →
      (wOpen.accept (fun _ => "aa") fsT (some GoError.notExist) none none
        none).1 = wOpen) ∧
     (∀ w' : File, w'.Closed = true → ∀ (fs' : FS) (p : Bytes) (n : Nat)
         (e : Option GoError),
       w'.write fs' p n e = (w', fs', 0, some GoError.alreadyClosed)) ∧
     (∀ w' : File, w'.Closed = true → ∀ (fs' : FS) (s c r m : Option GoError),
       w'.accept (fun _ => "aa") fs' s c r m =
         (w', fs', false, some GoError.alreadyClosed))) :=
  ⟨rfl, claim4_accept_match_is_terminal (fun _ => "aa") wOpen fsT
    (some GoError.notExist) none none none rfl⟩

/-! ## Claim C5 -/

/-- C5 counterexample: the claim says the rename happens iff no file
exists at the destination, with stat failures other than not-exists
distinguished from absence.  In the run below the destination exists
(holding `[9]`) but stat reports a non-not-exists fault; Accept still
takes the rename branch, returns `created = true`, and overwrites the
destination with the staging contents `[7]`. -/
theorem claim5_counterexample :
    (fsD.files "d/aa").isSome = true ∧
    (wOpen.accept (fun _ => "aa") fsD (some (GoError.fsFault "stat" 13)) none
       none none).2.2.1 = true ∧
    (wOpen.accept (fun _ => "aa") fsD (some (GoError.fsFault "stat" 13)) none
       none none).2.1.files "d/aa" = some [7] := by
  refine ⟨rfl, ?_, ?_⟩ <;> decide

/-- C5 amended: on a digest match the branch is decided solely by whether
the stat call on the destination returned an error — any error, not only
not-exists, selects the rename branch (and the stat error itself is never
propagated: the returned error is the rename outcome); a nil stat selects
the duplicate branch, whose error is the internal release result. -/
theorem claim5_stat_error_decides_branch (sha256hex : Bytes → String)
    (w : File) (fs : FS) (statErr closeErr renameErr removeErr : Option GoError)
    (hopen : w.Closed = false) (hsig : sha256hex w.hasher = w.Oid)
    (hne : w.filename ≠ w.tempFilename) :
    (statErr ≠ none →
      (w.accept sha256hex fs statErr closeErr renameErr removeErr).2.2.1 = true ∧
      (w.accept sha256hex fs statErr closeErr renameErr removeErr).2.2.2 = renameErr ∧
      (renameErr = none →
        (w.accept sha256hex fs statErr closeErr renameErr removeErr).2.1.files
          w.filename = fs.files w.tempFilename)) ∧
    (statErr = none →
      (w.accept sha256hex fs statErr closeErr renameErr removeErr).2.2.1 = false ∧
      (w.accept sha256hex fs statErr closeErr renameErr removeErr).2.2.2 =
        (w.close fs closeErr removeErr).2.2) := by
  obtain ⟨t, ht⟩ : ∃ t, w.tempFile = some t := by
    cases h : w.tempFile with
    | none => rw [File.Closed, h] at hopen; simp at hopen
    | some t => exact ⟨t, rfl⟩
  constructor
  · intro hstat
    match statErr with
    | none => exact absurd rfl hstat
    | some e =>
      refine ⟨by simp [File.accept, hopen, hsig, ht],
        by simp [File.accept, hopen, hsig, ht], ?_⟩
      intro hr
      subst hr
      simp [File.accept, hopen, hsig, ht, FS.rename, FS.files_set, hne]
  · intro hstat
    subst hstat
    simp [File.accept, hopen, hsig, ht]

/-- C5 witness: a concrete digest-match run with an injected stat fault
(rename branch) alongside the nil-stat duplicate branch. -/
theorem claim5_witness :
    wOpen.Closed = false ∧ (fun _ : Bytes => "aa") wOpen.hasher = wOpen.Oid ∧
    wOpen.filename ≠ wOpen.tempFilename ∧
    (((some (GoError.fsFault "stat" 13) : Option GoError) ≠ none →
      (wOpen.accept (fun _ => "aa") fsD (some (GoError.fsFault "stat" 13)) none
        none none).2.2.1 = true ∧
      (wOpen.accept (fun _ => "aa") fsD (some (GoError.fsFault "stat" 13)) none
        none none).2.2.2 = none ∧
      ((none : Option GoError) = none →
        (wOpen.accept (fun _ => "aa") fsD (some (GoError.fsFault "stat" 13)) none
          none none).2.1.files wOpen.filename = fsD.files wOpen.tempFilename)) ∧
     ((some (GoError.fsFault "stat" 13) : Option GoError) = none →
      (wOpen.accept (fun _ => "aa") fsD (some (GoError.fsFault "stat" 13)) none
        none none).2.2.1 = false ∧
      (wOpen.accept (fun _ => "aa") fsD (some (GoError.fsFault "stat" 13)) none
        none none).2.2.2 = (wOpen.close fsD none none).2.2)) :=
  ⟨rfl, rfl, by decide,
   claim5_stat_error_decides_branch (fun _ => "aa") wOpen fsD
     (some (GoError.fsFault "stat" 13)) none none none rfl rfl (by decide)⟩

/-! ## Claim C6 -/

/-- C6: when Accept runs on an open writer, the digest matches, and a file
already exists at the destination (so the honest stat outcome is nil),
Accept returns `created = false` with the error of the internal release,
the destination file is left unchanged, and when the release operations
succeed the staging file is removed and the writer ends closed with a nil
error. -/
theorem claim6_duplicate_destination (sha256hex : Bytes → String)
    (w : File) (fs : FS) (closeErr removeErr : Option GoError)
    (hwf : w.tempFile = some w.tempFilename)
    (hsig : sha256hex w.hasher = w.Oid)
    (hne : w.filename ≠ w.tempFilename)
    (hdest : (fs.files w.filename).isSome = true) :
    (w.accept sha256hex fs (idealStat fs w.filename) closeErr none
       removeErr).2.2.1 = false ∧
    (w.accept sha256hex fs (idealStat fs w.filename) closeErr none
       removeErr).2.2.2 = (w.close fs closeErr removeErr).2.2 ∧
    (w.accept sha256hex fs (idealStat fs w.filename) closeErr none
       removeErr).2.1.files w.filename = fs.files w.filename ∧
    (closeErr = none → removeErr = none →
      (w.accept sha256hex fs (idealStat fs w.filename) closeErr none
         removeErr).2.2.2 = none ∧
      (w.accept sha256hex fs (idealStat fs w.filename) closeErr none
         removeErr).2.1.files w.tempFilename = none ∧
      (w.accept sha256hex fs (idealStat fs w.filename) closeErr none
         removeErr).1.Closed = true) := by
  have hstat : idealStat fs w.filename = none := by simp [idealStat, hdest]
  have hopen : w.Closed = false := by simp [File.Closed, hwf]
  rw [hstat]
  refine ⟨by simp [File.accept, hopen, hsig, hwf],
    by simp [File.accept, hopen, hsig, hwf], ?_, ?_⟩
  · match removeErr with
    | none =>
      simp [File.accept, hopen, hsig, hwf, File.close, cleanupFile, FS.remove,
        FS.files_set, hne]
      match closeErr with
      | none => simp [FS.files_set, hne]
      | some e => simp [FS.files_set, hne]
    | some e => simp [File.accept, hopen, hsig, hwf, File.close, cleanupFile]
  · intro hc hm
    subst hc hm
    simp [File.accept, hopen, hsig, hwf, File.close, cleanupFile, FS.remove,
      FS.files_set, hne, File.Closed]

/-- C6 witness: a concrete duplicate-destination run with succeeding
release operations. -/
theorem claim6_witness :
    wOpen.tempFile = some wOpen.tempFilename ∧
    (fun _ : Bytes => "aa") wOpen.hasher = wOpen.Oid ∧
    wOpen.filename ≠ wOpen.tempFilename ∧
    (fsD.files wOpen.filename).isSome = true ∧
    ((wOpen.accept (fun _ => "aa") fsD (idealStat fsD wOpen.filename) none none
       none).2.2.1 = false ∧
     (wOpen.accept (fun _ => "aa") fsD (idealStat fsD wOpen.filename) none none
       none).2.2.2 = (wOpen.close fsD none none).2.2 ∧
     (wOpen.accept (fun _ => "aa") fsD (idealStat fsD wOpen.filename) none none
       none).2.1.files wOpen.filename = fsD.files wOpen.filename ∧
     ((none : Option GoError) = none → (none : Option GoError) = none →
       (wOpen.accept (fun _ => "aa") fsD (idealStat fsD wOpen.filename) none none
         none).2.2.2 = none ∧
       (wOpen.accept (fun _ => "aa") fsD (idealStat fsD wOpen.filename) none none
         none).2.1.files wOpen.tempFilename = none ∧
       (wOpen.accept (fun _ => "aa") fsD (idealStat fsD wOpen.filename) none none
         none).1.Closed = true)) :=
  ⟨rfl, rfl, by decide, rfl,
   claim6_duplicate_destination (fun _ => "aa") wOpen fsD none none
     rfl rfl (by decide) rfl⟩

/-! ## Claim C7 -/

/-- C7 counterexample: the claim says that after every error-producing
Accept, including a failed rename, an explicit Release removes the
staging file.  In the run below the rename fails, Accept returns that
error, the subsequent Release returns nil without doing anything, and the
staging file is still present afterward. -/
theorem claim7_counterexample :
    (wOpen.accept (fun _ => "aa") fsT (some GoError.notExist) none
        (some (GoError.fsFault "rename" 5)) none).2.2.2 =
      some (GoError.fsFault "rename" 5) ∧
    ((wOpen.accept (fun _ => "aa") fsT (some GoError.notExist) none
        (some (GoError.fsFault "rename" 5)) none).1.close
      (wOpen.accept (fun _ => "aa") fsT (some GoError.notExist) none
        (some (GoError.fsFault "rename" 5)) none).2.1 none none).2.2 = none ∧
    ((wOpen.accept (fun _ => "aa") fsT (some GoError.notExist) none
        (some (GoError.fsFault "rename" 5)) none).1.close
      (wOpen.accept (fun _ => "aa") fsT (some GoError.notExist) none
        (some (GoError.fsFault "rename" 5)) none).2.1 none none).2.1.files
      "d/aa-temp" = some [7] := by
  refine ⟨?_, ?_, ?_⟩ <;> decide

/-- C7 amended: after a content-mismatch Accept, an explicit Release with
succeeding operations removes the staging file and returns nil; likewise,
after a duplicate-branch Accept that returned the internal release's
error the writer is still open and an explicit Release with succeeding
operations removes the staging file and returns nil; but after a failed
rename the writer is already marked closed, so Release is a no-op
returning nil and the filesystem — the staging file included — is left
exactly as the failed Accept left it. -/
theorem claim7_release_after_error (sha256hex : Bytes → String) (w : File)
    (fs : FS) (statErr closeErr renameErr removeErr : Option GoError)
    (hwf : w.tempFile = some w.tempFilename) :
    (sha256hex w.hasher ≠ w.Oid →
      ((w.accept sha256hex fs statErr closeErr renameErr removeErr).1.close
         (w.accept sha256hex fs statErr closeErr renameErr removeErr).2.1
         none none).2.1.files w.tempFilename = none ∧
      ((w.accept sha256hex fs statErr closeErr renameErr removeErr).1.close
         (w.accept sha256hex fs statErr closeErr renameErr removeErr).2.1
         none none).2.2 = none) ∧
    (sha256hex w.hasher = w.Oid → statErr = none →
      (w.accept sha256hex fs statErr closeErr renameErr removeErr).2.2.2 ≠ none →
      (w.accept sha256hex fs statErr closeErr renameErr removeErr).1.Closed
        = false ∧
      ((w.accept sha256hex fs statErr closeErr renameErr removeErr).1.close
         (w.accept sha256hex fs statErr closeErr renameErr removeErr).2.1
         none none).2.1.files w.tempFilename = none ∧
      ((w.accept sha256hex fs statErr closeErr renameErr removeErr).1.close
         (w.accept sha256hex fs statErr closeErr renameErr removeErr).2.1
         none none).2.2 = none) ∧
    (sha256hex w.hasher = w.Oid → statErr ≠ none → renameErr ≠ none →
      (w.accept sha256hex fs statErr closeErr renameErr removeErr).2.1 = fs ∧
      ((w.accept sha256hex fs statErr closeErr renameErr removeErr).1.close
         fs closeErr removeErr) =
        ((w.accept sha256hex fs statErr closeErr renameErr removeErr).1,
         fs, none)) := by
  have hopen : w.Closed = false := by simp [File.Closed, hwf]
  refine ⟨?_, ?_, ?_⟩
  · intro hsig
    simp [File.accept, hopen, hsig, hwf, File.close, cleanupFile, FS.remove,
      FS.files_set]
  · intro hsig hstat herr
    subst hstat
    match removeErr with
    | some e =>
      refine ⟨?_, ?_, ?_⟩ <;>
        simp [File.accept, hopen, hsig, hwf, File.close, cleanupFile,
          FS.remove, FS.files_set, File.Closed]
    | none =>
      match closeErr with
      | some e =>
        refine ⟨?_, ?_, ?_⟩ <;>
          simp [File.accept, hopen, hsig, hwf, File.close, cleanupFile,
            FS.remove, FS.files_set, File.Closed]
      | none =>
        exfalso
        apply herr
        simp [File.accept, hopen, hsig, hwf, File.close, cleanupFile]
  · intro hsig hstat hren
    match statErr, renameErr with
    | none, _ => exact absurd rfl hstat
    | some _, none => exact absurd rfl hren
    | some e, some e' =>
      refine ⟨by simp [File.accept, hopen, hsig, hwf], ?_⟩
      simp [File.accept, hopen, hsig, hwf, File.close]

/-- C7 witness: a concrete mismatch run followed by Release, and a
concrete failed-rename run followed by Release. -/
theorem claim7_witness :
    wOpen.tempFile = some wOpen.tempFilename ∧
    (((fun _ : Bytes => "zz") wOpen.hasher ≠ wOpen.Oid →
      ((wOpen.accept (fun _ => "zz") fsT (some GoError.notExist) none
          (some (GoError.fsFault "rename" 5)) none).1.close
        (wOpen.accept (fun _ => "zz") fsT (some GoError.notExist) none
          (some (GoError.fsFault "rename" 5)) none).2.1 none none).2.1.files
        wOpen.tempFilename = none ∧
      ((wOpen.accept (fun _ => "zz") fsT (some GoError.notExist) none
          (some (GoError.fsFault "rename" 5)) none).1.close
        (wOpen.accept (fun _ => "zz") fsT (some GoError.notExist) none
          (some (GoError.fsFault "rename" 5)) none).2.1 none none).2.2 = none) ∧
     ((fun _ : Bytes => "zz") wOpen.hasher = wOpen.Oid →
        (some GoError.notExist : Option GoError) = none →
      (wOpen.accept (fun _ => "zz") fsT (some GoError.notExist) none
          (some (GoError.fsFault "rename" 5)) none).2.2.2 ≠ none →
      (wOpen.accept (fun _ => "zz") fsT (some GoError.notExist) none
          (some (GoError.fsFault "rename" 5)) none).1.Closed = false ∧
      ((wOpen.accept (fun _ => "zz") fsT (some GoError.notExist) none
          (some (GoError.fsFault "rename" 5)) none).1.close
        (wOpen.accept (fun _ => "zz") fsT (some GoError.notExist) none
          (some (GoError.fsFault "rename" 5)) none).2.1 none none).2.1.files
        wOpen.tempFilename = none ∧
      ((wOpen.accept (fun _ => "zz") fsT (some GoError.notExist) none
          (some (GoError.fsFault "rename" 5)) none).1.close
        (wOpen.accept (fun _ => "zz") fsT (some GoError.notExist) none
          (some (GoError.fsFault "rename" 5)) none).2.1 none none).2.2 = none) ∧
     ((fun _ : Bytes => "zz") wOpen.hasher = wOpen.Oid →
        (some GoError.notExist : Option GoError) ≠ none →
        (some (GoError.fsFault "rename" 5) : Option GoError) ≠ none →
      (wOpen.accept (fun _ => "zz") fsT (some GoError.notExist) none
        (some (GoError.fsFault "rename" 5)) none).2.1 = fsT ∧
      ((wOpen.accept (fun _ => "zz") fsT (some GoError.notExist) none
          (some (GoError.fsFault "rename" 5)) none).1.close
        fsT none none) =
        ((wOpen.accept (fun _ => "zz") fsT (some GoError.notExist) none
          (some (GoError.fsFault "rename" 5)) none).1, fsT, none))) :=
  ⟨rfl,
   claim7_release_after_error (fun _ => "zz") wOpen fsT (some GoError.notExist)
     none (some (GoError.fsFault "rename" 5)) none rfl⟩

/-! ## Claim C8 -/

/-- C8 counterexample: the claim says no underlying filesystem error is
silently swallowed except the double-release no-op.  In the run below the
stat call and the staging-handle close both fail during Accept, yet
Accept returns `(true, nil)`: both errors are discarded. -/
theorem claim8_counterexample :
    (wOpen.accept (fun _ => "aa") fsT (some (GoError.fsFault "stat" 13))
       (some (GoError.fsFault "close" 9)) none none).2.2.2 = none ∧
    (wOpen.accept (fun _ => "aa") fsT (some (GoError.fsFault "stat" 13))
       (some (GoError.fsFault "close" 9)) none none).2.2.1 = true := by
  constructor <;> decide

/-- C8 amended: write errors, rename errors, removal errors and — when
removal succeeds — handle-close errors are all returned to the immediate
caller, and release on a closed writer returns nil; but the stat error in
Accept is only a branch condition and is never returned, the
staging-handle close error on the rename path is ignored, and when both
close and removal fail during cleanup only the removal error is returned. -/
theorem claim8_error_propagation (sha256hex : Bytes → String) (w : File)
    (fs : FS) (p : Bytes) (n : Nat)
    (werr statErr closeErr renameErr removeErr : Option GoError)
    (hopen : w.Closed = false) :
    (w.write fs p n werr).2.2.2 = werr ∧
    (sha256hex w.hasher = w.Oid → statErr ≠ none →
      (w.accept sha256hex fs statErr closeErr renameErr removeErr).2.2.2 =
        renameErr) ∧
    (removeErr ≠ none → (w.close fs closeErr removeErr).2.2 = removeErr) ∧
    (removeErr = none → (w.close fs closeErr removeErr).2.2 = closeErr) ∧
    (∀ w' : File, w'.Closed = true → ∀ (fs' : FS) (c r : Option GoError),
      (w'.close fs' c r).2.2 = none) := by
  obtain ⟨t, ht⟩ : ∃ t, w.tempFile = some t := by
    cases h : w.tempFile with
    | none => rw [File.Closed, h] at hopen; simp at hopen
    | some t => exact ⟨t, rfl⟩
  refine ⟨by simp [File.write, hopen], ?_, ?_, ?_, ?_⟩
  · intro hsig hstat
    match statErr with
    | none => exact absurd rfl hstat
    | some e => simp [File.accept, hopen, hsig, ht]
  · intro hrm
    match removeErr with
    | none => exact absurd rfl hrm
    | some e => simp [File.close, cleanupFile, ht]
  · intro hrm
    subst hrm
    match closeErr with
    | none => simp [File.close, cleanupFile, ht]
    | some e => simp [File.close, cleanupFile, ht]
  · intro w' hcl fs' c r
    simp [File.close, Option.isNone_iff_eq_none.mp hcl]

/-- C8 witness: concrete error outcomes propagated through Write, Accept
and Close. -/
theorem claim8_witness :
    wOpen.Closed = false ∧
    ((wOpen.write fsT [3] 1 (some (GoError.fsFault "write" 5))).2.2.2 =
       some (GoError.fsFault "write" 5) ∧
     ((fun _ : Bytes => "aa") wOpen.hasher = wOpen.Oid →
        (some GoError.notExist : Option GoError) ≠ none →
       (wOpen.accept (fun _ => "aa") fsT (some GoError.notExist) none
          (some (GoError.fsFault "rename" 2))
          (some (GoError.fsFault "remove" 3))).2.2.2 =
         some (GoError.fsFault "rename" 2)) ∧
     ((some (GoError.fsFault "remove" 3) : Option GoError) ≠ none →
       (wOpen.close fsT none (some (GoError.fsFault "remove" 3))).2.2 =
         some (GoError.fsFault "remove" 3)) ∧
     ((some (GoError.fsFault "remove" 3) : Option GoError) = none →
       (wOpen.close fsT none (some (GoError.fsFault "remove" 3))).2.2 = none) ∧
     (∀ w' : File, w'.Closed = true → ∀ (fs' : FS) (c r : Option GoError),
       (w'.close fs' c r).2.2 = none)) :=
  ⟨rfl, claim8_error_propagation (fun _ => "aa") wOpen fsT [3] 1
    (some (GoError.fsFault "write" 5)) (some GoError.notExist) none
    (some (GoError.fsFault "rename" 2)) (some (GoError.fsFault "remove" 3)) rfl⟩

/-! ## Claim C9 -/

/-- C9 counterexample: the claim says that after any Release call
`Closed()` reports true.  In the run below the removal of the staging file
fails, Release returns that error, and the writer still reports open. -/
theorem claim9_counterexample :
    wOpen.Closed = false ∧
    (wOpen.close fsT none (some (GoError.fsFault "remove" 1))).2.2 =
      some (GoError.fsFault "remove" 1) ∧
    ((wOpen.close fsT none (some (GoError.fsFault "remove" 1))).1).Closed =
      false := by
  refine ⟨rfl, ?_, ?_⟩ <;> decide

/-- C9 amended: Release on an already-closed writer is a no-op returning
nil; after any Release call that returns nil the writer reports closed and
remains closed (further Releases are no-ops returning nil); a Release
whose cleanup fails returns the error and leaves the writer unchanged,
hence still open. -/
theorem claim9_release_idempotent (w : File) (fs : FS)
    (closeErr removeErr : Option GoError) :
    (w.Closed = true → w.close fs closeErr removeErr = (w, fs, none)) ∧
    ((w.close fs closeErr removeErr).2.2 = none →
      (w.close fs closeErr removeErr).1.Closed = true) ∧
    ((w.close fs closeErr removeErr).2.2 = none →
      ∀ (fs' : FS) (c r : Option GoError),
        ((w.close fs closeErr removeErr).1.close fs' c r) =
          ((w.close fs closeErr removeErr).1, fs', none)) ∧
    ((w.close fs closeErr removeErr).2.2 ≠ none →
      (w.close fs closeErr removeErr).1 = w) := by
  match h : w.tempFile with
  | none =>
    refine ⟨fun _ => by simp [File.close, h], ?_, ?_, ?_⟩
    · intro _; simp [File.close, h, File.Closed]
    · intro _ fs' c r; simp [File.close, h]
    · intro hne; simp [File.close, h] at hne
  | some t =>
    match removeErr with
    | some e =>
      refine ⟨?_, ?_, ?_, ?_⟩
      · intro hcl; rw [File.Closed, h] at hcl; simp at hcl
      · intro hnil; simp [File.close, cleanupFile, h] at hnil
      · intro hnil; simp [File.close, cleanupFile, h] at hnil
      · intro _; simp [File.close, cleanupFile, h]
    | none =>
      match closeErr with
      | some e =>
        refine ⟨?_, ?_, ?_, ?_⟩
        · intro hcl; rw [File.Closed, h] at hcl; simp at hcl
        · intro hnil; simp [File.close, cleanupFile, h] at hnil
        · intro hnil; simp [File.close, cleanupFile, h] at hnil
        · intro _; simp [File.close, cleanupFile, h]
      | none =>
        refine ⟨?_, ?_, ?_, ?_⟩
        · intro hcl; rw [File.Closed, h] at hcl; simp at hcl
        · intro _; simp [File.close, cleanupFile, h, File.Closed]
        · intro _ fs' c r; simp [File.close, cleanupFile, h]
        · intro hne; simp [File.close, cleanupFile, h] at hne

/-- C9 witness: a concrete successful Release followed by a second
Release. -/
theorem claim9_witness :
    (wOpen.Closed = true → wOpen.close fsT none none = (wOpen, fsT, none)) ∧
    ((wOpen.close fsT none none).2.2 = none →
      (wOpen.close fsT none none).1.Closed = true) ∧
    ((wOpen.close fsT none none).2.2 = none →
      ∀ (fs' : FS) (c r : Option GoError),
        ((wOpen.close fsT none none).1.close fs' c r) =
          ((wOpen.close fsT none none).1, fs', none)) ∧
    ((wOpen.close fsT none none).2.2 ≠ none →
      (wOpen.close fsT none none).1 = wOpen) :=
  claim9_release_idempotent wOpen fsT none none

/-! ## Claim C10 -/

/-- C10: when Close performs cleanup on an open writer, a removal error
takes precedence — it is returned and any close error is discarded — and
the close error is returned only when removal succeeds; after any failed
cleanup the writer is left unchanged, so it still reports open and Close
can be retried. -/
theorem claim10_cleanup_error_precedence (w : File) (fs : FS)
    (closeErr removeErr : Option GoError) (hopen : w.Closed = false) :
    (removeErr ≠ none → (w.close fs closeErr removeErr).2.2 = removeErr) ∧
    (removeErr = none → (w.close fs closeErr removeErr).2.2 = closeErr) ∧
    ((w.close fs closeErr removeErr).2.2 ≠ none →
      (w.close fs closeErr removeErr).1 = w ∧
      (w.close fs closeErr removeErr).1.Closed = false) := by
  obtain ⟨t, ht⟩ : ∃ t, w.tempFile = some t := by
    cases h : w.tempFile with
    | none => rw [File.Closed, h] at hopen; simp at hopen
    | some t => exact ⟨t, rfl⟩
  refine ⟨?_, ?_, ?_⟩
  · intro hrm
    match removeErr with
    | none => exact absurd rfl hrm
    | some e => simp [File.close, cleanupFile, ht]
  · intro hrm
    subst hrm
    match closeErr with
    | none => simp [File.close, cleanupFile, ht]
    | some e => simp [File.close, cleanupFile, ht]
  · intro hne
    match removeErr with
    | some e => exact ⟨by simp [File.close, cleanupFile, ht], by
        simp [File.close, cleanupFile, ht, hopen]⟩
    | none =>
      match closeErr with
      | some e => exact ⟨by simp [File.close, cleanupFile, ht], by
          simp [File.close, cleanupFile, ht, hopen]⟩
      | none => simp [File.close, cleanupFile, ht] at hne

/-- C10 witness: a concrete cleanup where both the handle close and the
removal fail — the removal error wins and the writer stays open. -/
theorem claim10_witness :
    wOpen.Closed = false ∧
    (((some (GoError.fsFault "remove" 1) : Option GoError) ≠ none →
       (wOpen.close fsT (some (GoError.fsFault "close" 9))
          (some (GoError.fsFault "remove" 1))).2.2 =
         some (GoError.fsFault "remove" 1)) ∧
     ((some (GoError.fsFault "remove" 1) : Option GoError) = none →
       (wOpen.close fsT (some (GoError.fsFault "close" 9))
          (some (GoError.fsFault "remove" 1))).2.2 =
         some (GoError.fsFault "close" 9)) ∧
     ((wOpen.close fsT (some (GoError.fsFault "close" 9))
         (some (GoError.fsFault "remove" 1))).2.2 ≠ none →
       (wOpen.close fsT (some (GoError.fsFault "close" 9))
          (some (GoError.fsFault "remove" 1))).1 = wOpen ∧
       (wOpen.close fsT (some (GoError.fsFault "close" 9))
          (some (GoError.fsFault "remove" 1))).1.Closed = false)) :=
  ⟨rfl, claim10_cleanup_error_precedence wOpen fsT
    (some (GoError.fsFault "close" 9)) (some (GoError.fsFault "remove" 1)) rfl⟩

end ContentAddressable
